import Mathlib

/-!
# Verification of the low-runner dispatch engine

Shallow embedding of the low-runner source (Go) in Lean 4, together with
proofs checking the natural-language specification against the code.

Source files embedded here: `sql.go` (job model, canonical source, SHA-1
content identity, executor), `run.go` (run-state store, dispatcher,
worker, result aggregator) and `api.go` (the `replaceXact` HTTP handler's
store manipulation).
-/

namespace LowRunner

/-! ## Go string helpers

Statement texts are modeled as Lean `String`; the character-level
operations mirror `strings.TrimRight(s, "\n\r\t ")`, `strings.HasSuffix`
and `strings.ToUpper` from the Go standard library, which operate on the
runes of the string (all characters that reach them in this program are
ASCII). -/

/-- The cutset of `strings.TrimRight(s.Text, "\n\r\t ")` in `genSource`. -/
def isTrimChar (c : Char) : Bool :=
  c = '\n' || c = '\r' || c = '\t' || c = ' '

/-- `strings.TrimRight(s, "\n\r\t ")` on the character list. -/
def trimRightChars (s : List Char) : List Char :=
  (s.reverse.dropWhile isTrimChar).reverse

/-- `strings.TrimRight(s, "\n\r\t ")` on strings. -/
def trimRight (s : String) : String :=
  ⟨trimRightChars s.data⟩

/-- `strings.HasSuffix(s, ";")`: the string ends with a semicolon
(`;` is ASCII, so the byte-level suffix test of Go coincides with the
character-level one). -/
def hasSuffixSemi (s : String) : Bool :=
  s.data.getLast? = some ';'

/-- `strings.ToUpper` on one character, for the ASCII range that the
outcome strings `commit` / `rollback` / `idle` / `notrun` use. -/
def goToUpperChar (c : Char) : Char :=
  if 'a' ≤ c ∧ c ≤ 'z' then Char.ofNat (c.toNat - 32) else c

/-- `strings.ToUpper` on strings. -/
def goToUpper (s : String) : String :=
  ⟨s.data.map goToUpperChar⟩

/-! ## Statement text normalization (`genSource` loop body)

In `genSource` each statement text is right-trimmed and given a
terminating semicolon before being appended to the canonical source:

    s.Text = strings.TrimRight(s.Text, "\n\r\t ")
    if !strings.HasSuffix(s.Text, ";") {
        s.Text += ";"
    }
-/

/-- The normalization `genSource` applies to each statement text. -/
def normalizeStmtText (t : String) : String :=
  let t' := trimRight t
  if hasSuffixSemi t' then t' else t' ++ ";"

/-! ### Facts about the normalization -/

theorem dropWhile_head?_not {p : Char → Bool} :
    ∀ (l : List Char) (a : Char), (l.dropWhile p).head? = some a → p a = false := by
  intro l
  induction l with
  | nil => intro a h; simp [List.dropWhile] at h
  | cons x xs ih =>
    intro a h
    rw [List.dropWhile_cons] at h
    by_cases hp : p x
    · simp [hp] at h
      exact ih a h
    · simp [hp] at h
      subst h
      simpa using hp

theorem trimRightChars_getLast?_not (s : List Char) (a : Char)
    (h : (trimRightChars s).getLast? = some a) : isTrimChar a = false := by
  unfold trimRightChars at h
  rw [List.getLast?_reverse] at h
  exact dropWhile_head?_not _ a h

theorem trimRightChars_of_getLast?_not (s : List Char) (a : Char)
    (hlast : s.getLast? = some a) (ha : isTrimChar a = false) :
    trimRightChars s = s := by
  unfold trimRightChars
  rw [← List.head?_reverse] at hlast
  cases hrev : s.reverse with
  | nil => simp [hrev] at hlast
  | cons x xs =>
    rw [hrev] at hlast
    simp at hlast
    subst hlast
    rw [List.dropWhile_cons_of_neg (by simp [ha])]
    rw [← hrev, List.reverse_reverse]

theorem normalizeStmtText_endsWith_semi (t : String) :
    hasSuffixSemi (normalizeStmtText t) = true := by
  unfold normalizeStmtText
  by_cases h : hasSuffixSemi (trimRight t) = true
  · simp [h]
  · simp only [h, if_false]
    apply decide_eq_true
    show ((trimRight t).data ++ [';']).getLast? = some ';'
    rw [List.getLast?_append_cons]
    rfl

theorem trimRight_normalizeStmtText (t : String) :
    trimRight (normalizeStmtText t) = normalizeStmtText t := by
  have hs : (normalizeStmtText t).data.getLast? = some ';' :=
    of_decide_eq_true (normalizeStmtText_endsWith_semi t)
  show (⟨trimRightChars (normalizeStmtText t).data⟩ : String) = normalizeStmtText t
  rw [trimRightChars_of_getLast?_not _ ';' hs (by decide)]

theorem normalizeStmtText_idem (t : String) :
    normalizeStmtText (normalizeStmtText t) = normalizeStmtText t := by
  rw [normalizeStmtText]
  simp only [trimRight_normalizeStmtText, normalizeStmtText_endsWith_semi, if_true]

/-! ## SHA-1 (`crypto/sha1`)

`genSource` derives the job id with `fmt.Sprintf("%x", sha1.Sum([]byte(src)))`:
the SHA-1 digest of the UTF-8 bytes of the canonical source, hex-encoded in
lowercase.  The algorithm is embedded here over `Nat` with explicit reduction
modulo `2 ^ 32`; bytes are `Nat` values below 256. -/

/-- Reduce to a 32-bit word. -/
def w32 (n : Nat) : Nat := n % 4294967296

/-- Left rotation of a 32-bit word by `k` bits. -/
def rotl (k n : Nat) : Nat := w32 ((n <<< k) ||| (n >>> (32 - k)))

/-- Big-endian 8-byte encoding of the 64-bit message bit length. -/
def be64 (n : Nat) : List Nat :=
  [(n >>> 56) % 256, (n >>> 48) % 256, (n >>> 40) % 256, (n >>> 32) % 256,
   (n >>> 24) % 256, (n >>> 16) % 256, (n >>> 8) % 256, n % 256]

/-- SHA-1 padding: `0x80`, zeros to 56 mod 64, then the bit length. -/
def sha1Pad (msg : List Nat) : List Nat :=
  let L := msg.length
  let zeros := (119 - L % 64) % 64
  msg ++ [0x80] ++ List.replicate zeros 0 ++ be64 (8 * L)

/-- Split the padded message into 64-byte blocks (`fuel`-driven structural
recursion; `fuel` bounds the number of blocks). -/
def chunks64 : Nat → List Nat → List (List Nat)
  | 0, _ => []
  | _ + 1, [] => []
  | fuel + 1, l => l.take 64 :: chunks64 fuel (l.drop 64)

/-- Assemble a list of bytes into big-endian 32-bit words. -/
def bytesToWords : List Nat → List Nat
  | b0 :: b1 :: b2 :: b3 :: rest =>
      (((b0 <<< 8 ||| b1) <<< 8 ||| b2) <<< 8 ||| b3) :: bytesToWords rest
  | _ => []

/-- Message-schedule extension: append words `w[i] = rotl1 (w[i-3] ^ w[i-8] ^
w[i-14] ^ w[i-16])` until 80 words are present (`k` words left to add). -/
def sha1Extend (ws : List Nat) : Nat → List Nat
  | 0 => ws
  | k + 1 =>
    let n := ws.length
    let w := rotl 1 ((ws.getD (n - 3) 0) ^^^ (ws.getD (n - 8) 0) ^^^
                     (ws.getD (n - 14) 0) ^^^ (ws.getD (n - 16) 0))
    sha1Extend (ws ++ [w]) k

/-- The round function and constant for round `i` of 80. -/
def sha1FK (i b c d : Nat) : Nat × Nat :=
  if i < 20 then ((b &&& c) ||| ((w32 (2 ^ 32 - 1 - b)) &&& d), 0x5A827999)
  else if i < 40 then (b ^^^ c ^^^ d, 0x6ED9EBA1)
  else if i < 60 then ((b &&& c) ||| (b &&& d) ||| (c &&& d), 0x8F1BBCDC)
  else (b ^^^ c ^^^ d, 0xCA62C1D6)

/-- One compression round. -/
def sha1Round (st : Nat × Nat × Nat × Nat × Nat) (iw : Nat × Nat) :
    Nat × Nat × Nat × Nat × Nat :=
  let (a, b, c, d, e) := st
  let (i, w) := iw
  let (f, k) := sha1FK i b c d
  let tmp := w32 (rotl 5 a + f + e + k + w)
  (tmp, a, rotl 30 b, c, d)

/-- Process one 64-byte block. -/
def sha1Block (h : Nat × Nat × Nat × Nat × Nat) (block : List Nat) :
    Nat × Nat × Nat × Nat × Nat :=
  let ws := sha1Extend (bytesToWords block) 64
  let (h0, h1, h2, h3, h4) := h
  let (a, b, c, d, e) :=
    ((List.range 80).zip ws).foldl sha1Round (h0, h1, h2, h3, h4)
  (w32 (h0 + a), w32 (h1 + b), w32 (h2 + c), w32 (h3 + d), w32 (h4 + e))

/-- SHA-1 digest of a byte list, as the five 32-bit state words. -/
def sha1Words (msg : List Nat) : Nat × Nat × Nat × Nat × Nat :=
  let padded := sha1Pad msg
  (chunks64 (padded.length) padded).foldl sha1Block
    (0x67452301, 0xEFCDAB89, 0x98BADCFE, 0x10325476, 0xC3D2E1F0)

/-- Lowercase hex digit. -/
def hexDigit (n : Nat) : Char :=
  if n < 10 then Char.ofNat (48 + n) else Char.ofNat (87 + n)

/-- A 32-bit word as 8 lowercase hex characters (big-endian nibbles). -/
def hexWord (n : Nat) : List Char :=
  [hexDigit ((n >>> 28) % 16), hexDigit ((n >>> 24) % 16),
   hexDigit ((n >>> 20) % 16), hexDigit ((n >>> 16) % 16),
   hexDigit ((n >>> 12) % 16), hexDigit ((n >>> 8) % 16),
   hexDigit ((n >>> 4) % 16), hexDigit (n % 16)]

/-- UTF-8 encoding of one character (`[]byte(src)` in Go). -/
def utf8Bytes (c : Char) : List Nat :=
  let n := c.toNat
  if n < 0x80 then [n]
  else if n < 0x800 then
    [0xC0 ||| (n >>> 6), 0x80 ||| (n &&& 0x3F)]
  else if n < 0x10000 then
    [0xE0 ||| (n >>> 12), 0x80 ||| ((n >>> 6) &&& 0x3F), 0x80 ||| (n &&& 0x3F)]
  else
    [0xF0 ||| (n >>> 18), 0x80 ||| ((n >>> 12) &&& 0x3F),
     0x80 ||| ((n >>> 6) &&& 0x3F), 0x80 ||| (n &&& 0x3F)]

/-- The UTF-8 bytes of a string. -/
def strBytes (s : String) : List Nat := s.data.flatMap utf8Bytes

/-- `fmt.Sprintf("%x", sha1.Sum([]byte(s)))`: lowercase hex encoding of the
SHA-1 digest of the UTF-8 bytes of `s`. -/
def sha1Hex (s : String) : String :=
  let (h0, h1, h2, h3, h4) := sha1Words (strBytes s)
  ⟨hexWord h0 ++ hexWord h1 ++ hexWord h2 ++ hexWord h3 ++ hexWord h4⟩

set_option maxRecDepth 10000 in
/-- Sanity check against the standard SHA-1 test vector for `"abc"`. -/
theorem sha1Hex_abc :
    sha1Hex "abc" = "a9993e364706816aba3e25717850c26c9cd0d89d" := by decide

/-! ## Job model (`sql.go`)

A `xact` is an ordered list of statements plus an expected outcome; its
`source` and `id` fields are derived by `genSource`. -/

/-- The transaction outcomes (`xactOutcome` constants in `sql.go`). -/
inductive xactOutcome
  | NotRun
  | Commit
  | Rollback
  | Idle
deriving DecidableEq, Repr

/-- The string value underlying each `xactOutcome` constant. -/
def xactOutcome.str : xactOutcome → String
  | .NotRun => "notrun"
  | .Commit => "commit"
  | .Rollback => "rollback"
  | .Idle => "idle"

/-- A single SQL statement (`stmt` in `sql.go`). -/
structure stmt where
  id : String := ""
  Text : String
deriving DecidableEq, Repr

/-- A job (`xact` in `sql.go`): derived `id` and `source`, the ordered
statement list, and the expected outcome. -/
structure xact where
  id : String := ""
  source : String := ""
  Statements : List stmt
  Outcome : xactOutcome
deriving DecidableEq, Repr

/-- The canonical source built by the loop of `genSource`:
`"BEGIN;"`, then `"\n" + normalized text` for every statement, then
`"\n" + strings.ToUpper(outcome) + ";"`. -/
def genSourceStr (stmts : List stmt) (o : xactOutcome) : String :=
  let src := stmts.foldl (fun src s => src ++ "\n" ++ normalizeStmtText s.Text) "BEGIN;"
  src ++ "\n" ++ goToUpper o.str ++ ";"

/-- `(x *xact) genSource()`: recompute the canonical source and the
content-derived id. -/
def xact.genSource (x : xact) : xact :=
  let src := genSourceStr x.Statements x.Outcome
  { x with source := src, id := sha1Hex src }

/-- `defaultXact()` from `sql.go`. -/
def defaultXact : xact :=
  ({ Statements := [{ Text := "SELECT 1" },
                    { Text := "SELECT * FROM generate_series(0, 150) i" }],
     Outcome := .Commit } : xact).genSource

/-- `newXact(sql []string)` from `sql.go`: a Commit job from plain
statement texts. -/
def newXact (sql : List String) : xact :=
  ({ Statements := sql.map fun s => { Text := s },
     Outcome := .Commit } : xact).genSource

set_option maxRecDepth 40000 in
/-- Cross-check of the embedded SHA-1 on the default job's canonical
source against an independently computed digest of the same string. -/
theorem sha1Hex_default_source :
    sha1Hex "BEGIN;\nSELECT 1;\nSELECT * FROM generate_series(0, 150) i;\nCOMMIT;"
      = "d6c82a7fdf66ca845cc0532377a903d876d51208" := by decide

set_option maxRecDepth 40000 in
/-- **C4**: the default job (statements `SELECT 1` and
`SELECT * FROM generate_series(0, 150) i`, expected outcome Commit) has
canonical source exactly
`"BEGIN;\nSELECT 1;\nSELECT * FROM generate_series(0, 150) i;\nCOMMIT;"`,
and its id is the hex-encoded SHA-1 digest of exactly that string. -/
theorem defaultXact_source_and_id :
    defaultXact.source
      = "BEGIN;\nSELECT 1;\nSELECT * FROM generate_series(0, 150) i;\nCOMMIT;"
    ∧ defaultXact.id
      = sha1Hex "BEGIN;\nSELECT 1;\nSELECT * FROM generate_series(0, 150) i;\nCOMMIT;" := by
  have hsrc : defaultXact.source
      = "BEGIN;\nSELECT 1;\nSELECT * FROM generate_series(0, 150) i;\nCOMMIT;" := by
    decide
  refine ⟨hsrc, ?_⟩
  have hid : defaultXact.id = sha1Hex defaultXact.source := rfl
  rw [hid, hsrc]

/-- **C9**: the statement-text normalization used by `genSource` strips
trailing whitespace/newlines and enforces a trailing `';'` (appending a
single `';'` exactly when the trimmed text does not already end in one),
and it is idempotent: renormalizing an already-normalized text is a no-op. -/
theorem normalizeStmtText_spec (t : String) :
    hasSuffixSemi (normalizeStmtText t) = true
    ∧ trimRight (normalizeStmtText t) = normalizeStmtText t
    ∧ (hasSuffixSemi (trimRight t) = false →
        normalizeStmtText t = trimRight t ++ ";")
    ∧ (hasSuffixSemi (trimRight t) = true →
        normalizeStmtText t = trimRight t)
    ∧ normalizeStmtText (normalizeStmtText t) = normalizeStmtText t := by
  refine ⟨normalizeStmtText_endsWith_semi t, trimRight_normalizeStmtText t, ?_, ?_,
    normalizeStmtText_idem t⟩
  · intro h
    unfold normalizeStmtText
    simp [h]
  · intro h
    unfold normalizeStmtText
    simp [h]

/-- Witness for C9 at the concrete text `"SELECT 1 \n"`. -/
theorem normalizeStmtText_spec_witness :
    hasSuffixSemi (normalizeStmtText "SELECT 1 \n") = true
    ∧ trimRight (normalizeStmtText "SELECT 1 \n") = normalizeStmtText "SELECT 1 \n"
    ∧ (hasSuffixSemi (trimRight "SELECT 1 \n") = false →
        normalizeStmtText "SELECT 1 \n" = trimRight "SELECT 1 \n" ++ ";")
    ∧ (hasSuffixSemi (trimRight "SELECT 1 \n") = true →
        normalizeStmtText "SELECT 1 \n" = trimRight "SELECT 1 \n")
    ∧ normalizeStmtText (normalizeStmtText "SELECT 1 \n")
        = normalizeStmtText "SELECT 1 \n" :=
  normalizeStmtText_spec "SELECT 1 \n"

end LowRunner

namespace LowRunner

/-! ## Run-state store (`runInfo` in `run.go`)

The job map `map[string]xact` is modeled as an association list with
unique keys; `lookupX` / `insertX` / `eraseX` are Go's map read, write
and `delete`.  The store operations are written state-passing: each
returns its result together with the store contents after the call, so
that the error paths (which in Go return before mutating) observably
leave the store unchanged. -/

/-- The contents of `runInfo.xacts`. -/
abbrev Store := List (String × xact)

/-- Go map read `m[k]`. -/
def lookupX : Store → String → Option xact
  | [], _ => none
  | (k', x) :: rest, k => if k' = k then some x else lookupX rest k

/-- Go map write `m[k] = x`. -/
def insertX : Store → String → xact → Store
  | [], k, x => [(k, x)]
  | (k', y) :: rest, k, x =>
      if k' = k then (k, x) :: rest else (k', y) :: insertX rest k x

/-- Go map `delete(m, k)`. -/
def eraseX : Store → String → Store
  | [], _ => []
  | (k', y) :: rest, k =>
      if k' = k then eraseX rest k else (k', y) :: eraseX rest k

theorem lookupX_insertX_self (r : Store) (k : String) (x : xact) :
    lookupX (insertX r k x) k = some x := by
  induction r with
  | nil => simp [insertX, lookupX]
  | cons p rest ih =>
    obtain ⟨k', y⟩ := p
    by_cases h : k' = k
    · simp [insertX, h, lookupX]
    · simp [insertX, h, lookupX, ih]

theorem lookupX_insertX_ne (r : Store) (k k' : String) (x : xact) (h : k' ≠ k) :
    lookupX (insertX r k x) k' = lookupX r k' := by
  have h' : ¬(k = k') := fun hh => h hh.symm
  induction r with
  | nil => simp [insertX, lookupX, h']
  | cons p rest ih =>
    obtain ⟨k'', y⟩ := p
    by_cases h2 : k'' = k
    · subst h2
      simp [insertX, lookupX, h']
    · simp [insertX, h2, lookupX, ih]

theorem lookupX_eraseX_self (r : Store) (k : String) :
    lookupX (eraseX r k) k = none := by
  induction r with
  | nil => simp [eraseX, lookupX]
  | cons p rest ih =>
    obtain ⟨k', y⟩ := p
    by_cases h : k' = k
    · subst h
      simp [eraseX, ih]
    · simp [eraseX, h, lookupX, ih]

theorem lookupX_eraseX_ne (r : Store) (k k' : String) (h : k' ≠ k) :
    lookupX (eraseX r k) k' = lookupX r k' := by
  have h' : ¬(k = k') := fun hh => h hh.symm
  induction r with
  | nil => simp [eraseX]
  | cons p rest ih =>
    obtain ⟨k'', y⟩ := p
    by_cases h2 : k'' = k
    · subst h2
      simp [eraseX, lookupX, h', ih]
    · simp [eraseX, h2, lookupX, ih]

/-- `runInfo.get`. -/
def runInfo.get (r : Store) (xid : String) : Except String xact :=
  match lookupX r xid with
  | none => .error "xact not found in run list"
  | some x => .ok x

/-- `runInfo.add`: reject when the id is already present (the store is
untouched on that path), else insert under `x.id`. -/
def runInfo.add (r : Store) (x : xact) : Option String × Store :=
  if (lookupX r x.id).isSome then (some "xact already exists in run list", r)
  else (none, insertX r x.id x)

/-- `runInfo.remove`: reject when the id is absent (store untouched),
else delete the key. -/
def runInfo.remove (r : Store) (xid : String) : Option String × Store :=
  if (lookupX r xid).isSome then (none, eraseX r xid)
  else (some "xact not found in run list", r)

/-- `runInfo.appendXact`: fetch the job, append the statements of `x`,
regenerate source and id, then delete the old key and insert the new one. -/
def runInfo.appendXact (r : Store) (xid : String) (x : xact) :
    Except String xact × Store :=
  match lookupX r xid with
  | none => (.error "xact not found in run list", r)
  | some cur =>
    let cur' := xact.genSource { cur with Statements := cur.Statements ++ x.Statements }
    (.ok cur', insertX (eraseX r xid) cur'.id cur')

/-- The HTTP status codes the `replaceXact` handler can answer with. -/
inductive apiStatus
  | OK
  | Created
  | BadRequest
  | NotFound
  | Conflict
deriving DecidableEq, Repr

/-- The store manipulation of the `replaceXact` handler in `api.go`
(`PUT /v1/xacts/:id`): remove the old job, then construct and add the
replacement; an `add` failure is answered with 400 after the removal
has already happened. -/
def replaceXact (r : Store) (id : String) (stmts : List String) :
    apiStatus × Store :=
  match runInfo.remove r id with
  | (some _, r') => (.NotFound, r')
  | (none, r1) =>
    let x := newXact stmts
    match runInfo.add r1 x with
    | (some _, r2) => (.BadRequest, r2)
    | (none, r2) => (.OK, r2)

end LowRunner

namespace LowRunner

/-! ## Content-addressed identity (claims C6 and C2) -/

/-- A job built from a statement list and an outcome, with its derived
source and id (every constructor in `sql.go` ends with `genSource`). -/
def buildJob (s : List stmt) (o : xactOutcome) : xact :=
  ({ Statements := s, Outcome := o } : xact).genSource

theorem foldl_src_eq_of_texts :
    ∀ (s1 s2 : List stmt) (acc : String),
      s1.map stmt.Text = s2.map stmt.Text →
      s1.foldl (fun src s => src ++ "\n" ++ normalizeStmtText s.Text) acc
        = s2.foldl (fun src s => src ++ "\n" ++ normalizeStmtText s.Text) acc := by
  intro s1
  induction s1 with
  | nil =>
    intro s2 acc h
    cases s2 with
    | nil => rfl
    | cons b bs => simp at h
  | cons a as ih =>
    intro s2 acc h
    cases s2 with
    | nil => simp at h
    | cons b bs =>
      simp only [List.map_cons, List.cons.injEq] at h
      obtain ⟨hab, hrest⟩ := h
      simp only [List.foldl_cons, hab]
      exact ih bs _ hrest

/-- The canonical source depends only on the statement texts and the
outcome, not on statement ids or any previously stored id/source. -/
theorem genSourceStr_eq_of_texts (s1 s2 : List stmt) (o : xactOutcome)
    (h : s1.map stmt.Text = s2.map stmt.Text) :
    genSourceStr s1 o = genSourceStr s2 o := by
  unfold genSourceStr
  rw [foldl_src_eq_of_texts s1 s2 _ h]

/-- **C6**: two jobs built from identical statement text and outcome
receive the same content-derived id, and adding the second such job to a
store that already holds the first fails with the AlreadyExists conflict
while leaving the store exactly as it was. -/
theorem same_content_same_id_add_conflict
    (s1 s2 : List stmt) (o : xactOutcome) (r r1 : Store)
    (htext : s1.map stmt.Text = s2.map stmt.Text)
    (hadd : runInfo.add r (buildJob s1 o) = (none, r1)) :
    (buildJob s1 o).id = (buildJob s2 o).id
    ∧ runInfo.add r1 (buildJob s2 o)
        = (some "xact already exists in run list", r1) := by
  have hid : (buildJob s1 o).id = (buildJob s2 o).id := by
    simp only [buildJob, xact.genSource]
    rw [genSourceStr_eq_of_texts s1 s2 o htext]
  refine ⟨hid, ?_⟩
  unfold runInfo.add at hadd ⊢
  by_cases hc : (lookupX r (buildJob s1 o).id).isSome
  · simp [hc] at hadd
  · simp only [hc, if_false, Bool.false_eq_true, Prod.mk.injEq] at hadd
    obtain ⟨-, hr1⟩ := hadd
    subst hr1
    rw [← hid, lookupX_insertX_self]
    simp

/-- Concrete jobs for the C6 witness: same statement text, different
(ignored) statement ids. -/
def wJob1 : xact := buildJob [{ Text := "SELECT 1" }] .Commit

def wJob2 : xact := buildJob [{ id := "w2", Text := "SELECT 1" }] .Commit

def wStore : Store := insertX [] wJob1.id wJob1

/-- Witness for C6: the two concrete jobs share an id and the second add
is rejected with the store unchanged. -/
theorem same_content_same_id_add_conflict_witness :
    wJob1.id = wJob2.id
    ∧ runInfo.add wStore wJob2
        = (some "xact already exists in run list", wStore) :=
  same_content_same_id_add_conflict _ _ .Commit [] wStore rfl rfl

end LowRunner

namespace LowRunner

/-! ## Replace with colliding id (claim C2)

`replaceXact` removes the old job before attempting the conflicting add,
so on the conflict path the old job is already gone. -/

/-- Job A of the replace scenario. -/
def jobA : xact := newXact ["SELECT 1"]

/-- Job B of the replace scenario (a different job). -/
def jobB : xact := newXact ["SELECT 2"]

/-- A store holding exactly jobs A and B under their ids. -/
def storeAB : Store := insertX (insertX [] jobA.id jobA) jobB.id jobB

/-- Replacing job A with statements that canonicalize to job B's id. -/
def replacedAB : apiStatus × Store := replaceXact storeAB jobA.id ["SELECT 2"]

set_option maxRecDepth 100000 in
/-- **C2 counterexample**: with distinct jobs A and B in the store,
replacing A by B's statement list fails (HTTP 400 from the duplicate-id
error of `add`), yet afterwards the store no longer holds job A — the
claim that both original jobs are still present is false. -/
theorem replaceXact_conflict_loses_old_job :
    jobA.id ≠ jobB.id
    ∧ replacedAB.1 = apiStatus.BadRequest
    ∧ lookupX replacedAB.2 jobA.id = none
    ∧ lookupX replacedAB.2 jobB.id = some jobB := by decide

/-- **C2 amended**: replacing job A (present) with statements whose
canonical id equals the id of a different job B (also present) fails with
the duplicate-id conflict of `add`, answered as 400; job B is left
intact, but job A has already been removed — the resulting store is the
original minus A's key, not the unchanged store. -/
theorem replaceXact_conflict_spec (r : Store) (idA : String)
    (stmts : List String) (a b : xact)
    (ha : lookupX r idA = some a)
    (hb : lookupX r (newXact stmts).id = some b)
    (hne : (newXact stmts).id ≠ idA) :
    replaceXact r idA stmts = (apiStatus.BadRequest, eraseX r idA)
    ∧ lookupX (eraseX r idA) (newXact stmts).id = some b
    ∧ lookupX (eraseX r idA) idA = none := by
  have hrem : runInfo.remove r idA = (none, eraseX r idA) := by
    unfold runInfo.remove
    simp [ha]
  have hb' : lookupX (eraseX r idA) (newXact stmts).id = some b := by
    rw [lookupX_eraseX_ne r idA _ hne]
    exact hb
  have hadd : runInfo.add (eraseX r idA) (newXact stmts)
      = (some "xact already exists in run list", eraseX r idA) := by
    unfold runInfo.add
    simp [hb']
  refine ⟨?_, hb', lookupX_eraseX_self r idA⟩
  unfold replaceXact
  rw [hrem]
  dsimp only
  rw [hadd]

set_option maxRecDepth 100000 in
/-- Witness for the amended C2 at the concrete two-job store. -/
theorem replaceXact_conflict_spec_witness :
    replaceXact storeAB jobA.id ["SELECT 2"]
      = (apiStatus.BadRequest, eraseX storeAB jobA.id)
    ∧ lookupX (eraseX storeAB jobA.id) (newXact ["SELECT 2"]).id = some jobB
    ∧ lookupX (eraseX storeAB jobA.id) jobA.id = none :=
  replaceXact_conflict_spec storeAB jobA.id ["SELECT 2"] jobA jobB
    (by decide) (by decide) (by decide)

end LowRunner

namespace LowRunner

/-! ## Appending statements (`runInfo.appendXact`, claim C5)

The re-keying behaviour and the empty-append case are settled below.
The remaining conjunct of the claim — that a non-empty append always
changes the id — is exactly collision-freeness of SHA-1 between a
canonical source and its proper extensions; what is provable is that
the canonical source itself always changes (strictly grows). -/

/-- `genSource` is idempotent: it only rewrites the derived fields, which
it does not read. -/
theorem xact.genSource_genSource (x : xact) :
    (x.genSource).genSource = x.genSource := rfl

/-- Appending an empty statement list leaves the id unchanged and the
job still present under its key (the key is deleted and re-inserted
within the same operation). -/
theorem appendXact_empty_noop (r : Store) (x y : xact)
    (hwf : x.genSource = x) (hx : lookupX r x.id = some x)
    (hy : y.Statements = []) :
    runInfo.appendXact r x.id y = (.ok x, insertX (eraseX r x.id) x.id x)
    ∧ lookupX (runInfo.appendXact r x.id y).2 x.id = some x := by
  have hcur : xact.genSource { x with Statements := x.Statements ++ y.Statements } = x := by
    have hs : x.Statements ++ y.Statements = x.Statements := by simp [hy]
    rw [hs]
    exact hwf
  have happ : runInfo.appendXact r x.id y
      = (.ok x, insertX (eraseX r x.id) x.id x) := by
    unfold runInfo.appendXact
    rw [hx]
    dsimp only
    rw [hcur]
  refine ⟨happ, ?_⟩
  rw [happ]
  exact lookupX_insertX_self _ _ _

/-- When the regenerated id differs from the old key, the append
operation re-keys the store: the updated job is present under the new
id and the old key is gone. -/
theorem appendXact_rekeys (r : Store) (xid : String) (cur y : xact)
    (hx : lookupX r xid = some cur)
    (hne : (xact.genSource { cur with Statements := cur.Statements ++ y.Statements }).id ≠ xid) :
    let cur' := xact.genSource { cur with Statements := cur.Statements ++ y.Statements }
    runInfo.appendXact r xid y = (.ok cur', insertX (eraseX r xid) cur'.id cur')
    ∧ lookupX (runInfo.appendXact r xid y).2 cur'.id = some cur'
    ∧ lookupX (runInfo.appendXact r xid y).2 xid = none := by
  intro cur'
  have happ : runInfo.appendXact r xid y
      = (.ok cur', insertX (eraseX r xid) cur'.id cur') := by
    unfold runInfo.appendXact
    rw [hx]
  refine ⟨happ, ?_, ?_⟩
  · rw [happ]
    exact lookupX_insertX_self _ _ _
  · rw [happ]
    show lookupX (insertX (eraseX r xid) cur'.id cur') xid = none
    rw [lookupX_insertX_ne _ _ _ _ (fun h => hne h.symm)]
    exact lookupX_eraseX_self r xid

theorem length_foldl_src_le (l : List stmt) (acc : String) :
    acc.length ≤ (l.foldl (fun src s => src ++ "\n" ++ normalizeStmtText s.Text) acc).length := by
  induction l generalizing acc with
  | nil => simp
  | cons s rest ih =>
    simp only [List.foldl_cons]
    calc acc.length ≤ (acc ++ "\n" ++ normalizeStmtText s.Text).length := by
          simp only [String.length_append]
          omega
      _ ≤ _ := ih _

theorem normalizeStmtText_length_pos (t : String) :
    0 < (normalizeStmtText t).length := by
  have hs : (normalizeStmtText t).data.getLast? = some ';' :=
    of_decide_eq_true (normalizeStmtText_endsWith_semi t)
  cases hd : (normalizeStmtText t).data with
  | nil => rw [hd] at hs; simp at hs
  | cons c cs =>
    show 0 < (normalizeStmtText t).data.length
    rw [hd]
    simp

/-- Appending a non-empty statement list strictly grows the canonical
source: the new source is a longer string, hence a different one. -/
theorem genSourceStr_append_ne (l : List stmt) (s : stmt) (ss : List stmt)
    (o : xactOutcome) :
    genSourceStr (l ++ s :: ss) o ≠ genSourceStr l o := by
  have hlen : (genSourceStr l o).length < (genSourceStr (l ++ s :: ss) o).length := by
    unfold genSourceStr
    simp only [List.foldl_append, List.foldl_cons, String.length_append]
    have h1 := length_foldl_src_le ss
      ((l.foldl (fun src s => src ++ "\n" ++ normalizeStmtText s.Text) "BEGIN;")
        ++ "\n" ++ normalizeStmtText s.Text)
    have h2 := normalizeStmtText_length_pos s.Text
    simp only [String.length_append] at h1
    omega
  intro heq
  rw [heq] at hlen
  omega

end LowRunner

namespace LowRunner

/-! ## Executor (`runXact` / `runStatement` in `sql.go`, claims C3 and C10)

The database driver is the out-of-scope capability: it is modeled as an
oracle saying whether `pool.Acquire` and `conn.Begin` succeed and, for
the i-th executed statement, the drained row count and whether the query
failed.  `runXact` is instrumented to also return the `stmtResult`s its
loop produces (the Go code builds and discards them). -/

/-- The database capability oracle. -/
structure dbEnv where
  acquireOk : Bool
  beginOk : Bool
  stmtExec : Nat → Nat × Bool

/-- The two short-circuiting error exits of `runXact`. -/
inductive runErr
  | acquireFailed
  | beginFailed
deriving DecidableEq, Repr

/-- `stmtResult` (the wall-clock `startTime` / `stopTime` fields are not
modeled). -/
structure stmtResult where
  stmtId : String
  count : Nat
  failed : Bool
deriving DecidableEq, Repr

/-- `xactResult` (the wall-clock time fields are not modeled). -/
structure xactResult where
  xactId : String
  outcome : xactOutcome
deriving DecidableEq, Repr

/-- `runStatement(s, tx)` for the `i`-th statement: result plus whether
an error was returned. -/
def runStatement (env : dbEnv) (i : Nat) (s : stmt) : stmtResult × Bool :=
  ({ stmtId := s.id, count := (env.stmtExec i).1, failed := (env.stmtExec i).2 },
   (env.stmtExec i).2)

/-- The statement loop of `runXact`: every statement is executed; a
failure flips the outcome to Rollback but does not stop the loop. -/
def runStmts (env : dbEnv) : Nat → List stmt → xactOutcome → xactOutcome × List stmtResult
  | _, [], o => (o, [])
  | i, s :: rest, o =>
    let o' := if (runStatement env i s).2 then xactOutcome.Rollback else o
    ((runStmts env (i + 1) rest o').1,
     (runStatement env i s).1 :: (runStmts env (i + 1) rest o').2)

/-- `runXact(x, pool)`: the result, the statement results produced by the
loop, and the returned error.  The result starts with `outcome: Rollback`;
acquire/begin failures return it as is; otherwise the outcome is set to
Commit and the loop may flip it back to Rollback. -/
def runXact (env : dbEnv) (x : xact) : xactResult × List stmtResult × Option runErr :=
  let res : xactResult := { xactId := x.id, outcome := .Rollback }
  if env.acquireOk = false then (res, [], some .acquireFailed)
  else if env.beginOk = false then (res, [], some .beginFailed)
  else
    ({ res with outcome := (runStmts env 0 x.Statements .Commit).1 },
     (runStmts env 0 x.Statements .Commit).2, none)

theorem runStmts_trace (env : dbEnv) :
    ∀ (l : List stmt) (i : Nat) (o : xactOutcome) (j : Nat),
      (runStmts env i l o).2[j]?
        = l[j]?.map (fun s => (runStatement env (i + j) s).1) := by
  intro l
  induction l with
  | nil => intro i o j; simp [runStmts]
  | cons s rest ih =>
    intro i o j
    cases j with
    | zero => simp [runStmts]
    | succ j =>
      simp only [runStmts, List.getElem?_cons_succ]
      rw [ih]
      have h : i + 1 + j = i + (j + 1) := by omega
      rw [h]

theorem runStmts_length (env : dbEnv) :
    ∀ (l : List stmt) (i : Nat) (o : xactOutcome),
      (runStmts env i l o).2.length = l.length := by
  intro l
  induction l with
  | nil => intro i o; simp [runStmts]
  | cons s rest ih =>
    intro i o
    simp [runStmts, ih]

theorem runStmts_outcome_of_all_ok (env : dbEnv) :
    ∀ (l : List stmt) (i : Nat) (o : xactOutcome),
      (∀ j, j < l.length → (env.stmtExec (i + j)).2 = false) →
      (runStmts env i l o).1 = o := by
  intro l
  induction l with
  | nil => intro i o _; simp [runStmts]
  | cons s rest ih =>
    intro i o hok
    have h0 : (env.stmtExec i).2 = false := by
      have := hok 0 (by simp)
      simpa using this
    simp only [runStmts, runStatement, h0, Bool.false_eq_true, if_false]
    apply ih
    intro j hj
    have h2 := hok (j + 1) (by simpa using Nat.succ_lt_succ hj)
    have he : i + 1 + j = i + (j + 1) := by omega
    rw [he]
    exact h2

theorem runStmts_outcome_of_failure (env : dbEnv) :
    ∀ (l : List stmt) (i : Nat) (o : xactOutcome) (j : Nat),
      j < l.length → (env.stmtExec (i + j)).2 = true →
      (runStmts env i l o).1 = xactOutcome.Rollback := by
  intro l
  induction l with
  | nil => intro i o j hj; simp at hj
  | cons s rest ih =>
    intro i o j hj hf
    cases j with
    | zero =>
      simp only [Nat.add_zero] at hf
      simp only [runStmts, runStatement, hf, if_true]
      have : ∀ (o' : xactOutcome) (l : List stmt) (i : Nat),
          (runStmts env i l o').1 = o' ∨ (runStmts env i l o').1 = xactOutcome.Rollback := by
        intro o' l'
        induction l' generalizing o' with
        | nil => intro i; simp [runStmts]
        | cons a as ih2 =>
          intro i
          simp only [runStmts]
          by_cases hfa : (runStatement env i a).2 = true
          · simp only [hfa, if_true]
            rcases ih2 xactOutcome.Rollback (i + 1) with h | h
            · right; exact h
            · right; exact h
          · simp only [hfa, if_false]
            exact ih2 o' (i + 1)
      rcases this xactOutcome.Rollback rest (i + 1) with h | h
      · exact h
      · exact h
    | succ j =>
      have hj' : j < rest.length := by simpa using Nat.lt_of_succ_lt_succ hj
      have hf' : (env.stmtExec (i + 1 + j)).2 = true := by
        have : i + 1 + j = i + (j + 1) := by omega
        rw [this]
        exact hf
      simp only [runStmts]
      exact ih (i + 1) _ j hj' hf'

end LowRunner

namespace LowRunner

/-- **C3**: with acquire and begin succeeding, `runXact` returns no
function error whatever the statements do; it attempts every statement
of the job in order (the j-th produced result is exactly the j-th
statement's result, so a failure never prevents later statements); and
the result's outcome is Commit iff every statement succeeded, otherwise
Rollback. -/
theorem runXact_continues_after_stmt_failure (env : dbEnv) (x : xact)
    (hacq : env.acquireOk = true) (hbeg : env.beginOk = true) :
    (runXact env x).2.2 = none
    ∧ (runXact env x).2.1.length = x.Statements.length
    ∧ (∀ j : Nat, (runXact env x).2.1[j]?
        = x.Statements[j]?.map (fun s => (runStatement env j s).1))
    ∧ ((runXact env x).1.outcome = xactOutcome.Commit
        ↔ ∀ j, j < x.Statements.length → (env.stmtExec j).2 = false)
    ∧ ((runXact env x).1.outcome = xactOutcome.Commit
        ∨ (runXact env x).1.outcome = xactOutcome.Rollback) := by
  have hrx : runXact env x
      = ({ xactId := x.id, outcome := (runStmts env 0 x.Statements .Commit).1 },
         (runStmts env 0 x.Statements .Commit).2, none) := by
    unfold runXact
    rw [hacq, hbeg]
    simp
  rw [hrx]
  dsimp only
  refine ⟨rfl, runStmts_length env x.Statements 0 .Commit, ?_, ?_, ?_⟩
  · intro j
    have := runStmts_trace env x.Statements 0 .Commit j
    simpa using this
  · constructor
    · intro hc j hj
      by_contra hfail
      have hf : (env.stmtExec (0 + j)).2 = true := by
        simp only [Nat.zero_add]
        cases hcase : (env.stmtExec j).2
        · exact absurd hcase hfail
        · rfl
      have hro := runStmts_outcome_of_failure env x.Statements 0 .Commit j hj hf
      rw [hro] at hc
      exact xactOutcome.noConfusion hc
    · intro hok
      apply runStmts_outcome_of_all_ok
      intro j hj
      simpa using hok j hj
  · by_cases hall : ∀ j, j < x.Statements.length → (env.stmtExec j).2 = false
    · left
      apply runStmts_outcome_of_all_ok
      intro j hj
      simpa using hall j hj
    · right
      push_neg at hall
      obtain ⟨j, hj, hfail⟩ := hall
      have hf : (env.stmtExec (0 + j)).2 = true := by
        simp only [Nat.zero_add]
        cases hcase : (env.stmtExec j).2
        · exact absurd hcase hfail
        · rfl
      exact runStmts_outcome_of_failure env x.Statements 0 .Commit j hj hf

end LowRunner

namespace LowRunner

/-- Concrete oracle for the C3 witness: acquire and begin succeed and the
second statement (index 1) fails. -/
def envW : dbEnv :=
  { acquireOk := true, beginOk := true, stmtExec := fun i => (2 * i, i == 1) }

/-- Concrete three-statement job for the C3 witness. -/
def jobW : xact :=
  buildJob [{ Text := "SELECT 1" }, { Text := "SELECT err" },
            { Text := "SELECT 2" }] .Commit

/-- Witness for C3 at a job whose second statement fails. -/
theorem runXact_continues_after_stmt_failure_witness :
    (runXact envW jobW).2.2 = none
    ∧ (runXact envW jobW).2.1.length = jobW.Statements.length
    ∧ (∀ j : Nat, (runXact envW jobW).2.1[j]?
        = jobW.Statements[j]?.map (fun s => (runStatement envW j s).1))
    ∧ ((runXact envW jobW).1.outcome = xactOutcome.Commit
        ↔ ∀ j, j < jobW.Statements.length → (envW.stmtExec j).2 = false)
    ∧ ((runXact envW jobW).1.outcome = xactOutcome.Commit
        ∨ (runXact envW jobW).1.outcome = xactOutcome.Rollback) :=
  runXact_continues_after_stmt_failure envW jobW rfl rfl

/-! ## Worker and result channel (claim C10) -/

/-- `worker(pool, job, wg, results)`: the results the invocation pushes on
the shared channel — the code performs exactly one unconditional send of
the `runXact` result, error or not. -/
def workerSends (env : dbEnv) (job : xact) : List xactResult :=
  [(runXact env job).1]

/-- One receive in `gather`'s select loop: a Rollback outcome is appended
to the failures list, anything else bumps the per-second counter. -/
def gatherRecv (count : Nat) (failures : List xactResult) (res : xactResult) :
    Nat × List xactResult :=
  if res.outcome = xactOutcome.Rollback then (count, failures ++ [res])
  else (count + 1, failures)

/-- **C10**: every worker invocation sends exactly one result — the
`runXact` result — including when `runXact` returns an error; on a
connection-acquire or begin failure the sent result carries the initial
outcome Rollback, so the aggregator books it as a failure (appended to
the failures list, not counted as completed). -/
theorem worker_sends_one_result (env : dbEnv) (job : xact) :
    workerSends env job = [(runXact env job).1]
    ∧ (workerSends env job).length = 1
    ∧ ((env.acquireOk = false ∨ env.beginOk = false) →
        (runXact env job).2.2.isSome = true
        ∧ (runXact env job).1.outcome = xactOutcome.Rollback
        ∧ ∀ (count : Nat) (failures : List xactResult),
            gatherRecv count failures (runXact env job).1
              = (count, failures ++ [(runXact env job).1])) := by
  refine ⟨rfl, rfl, ?_⟩
  intro herr
  have hcase : runXact env job
      = ({ xactId := job.id, outcome := .Rollback }, [], some runErr.acquireFailed)
      ∨ runXact env job
      = ({ xactId := job.id, outcome := .Rollback }, [], some runErr.beginFailed) := by
    unfold runXact
    cases hA : env.acquireOk with
    | false => left; simp
    | true =>
      have hB : env.beginOk = false := by
        rcases herr with h | h
        · rw [hA] at h; exact Bool.noConfusion h
        · exact h
      right
      simp [hB]
  rcases hcase with h | h <;>
    · rw [h]
      refine ⟨rfl, rfl, ?_⟩
      intro count failures
      rfl

/-- Concrete oracle whose connection acquisition fails. -/
def envAcqFail : dbEnv :=
  { acquireOk := false, beginOk := true, stmtExec := fun _ => (0, false) }

/-- Witness for C10 at the default job with a failing acquire. -/
theorem worker_sends_one_result_witness :
    workerSends envAcqFail defaultXact = [(runXact envAcqFail defaultXact).1]
    ∧ (workerSends envAcqFail defaultXact).length = 1
    ∧ ((envAcqFail.acquireOk = false ∨ envAcqFail.beginOk = false) →
        (runXact envAcqFail defaultXact).2.2.isSome = true
        ∧ (runXact envAcqFail defaultXact).1.outcome = xactOutcome.Rollback
        ∧ ∀ (count : Nat) (failures : List xactResult),
            gatherRecv count failures (runXact envAcqFail defaultXact).1
              = (count, failures ++ [(runXact envAcqFail defaultXact).1])) :=
  worker_sends_one_result envAcqFail defaultXact

end LowRunner

namespace LowRunner

/-! ## Aggregator window (`gather` in `run.go`, claim C7)

Each second `gather` appends the current count to `xacts`, sums the
window, logs `sum / len` (float64 in Go, modeled exactly in ℚ), resets
the counter, and drops the oldest sample once the window holds 60
entries (`xacts = xacts[1:]`). -/

/-- One second boundary of `gather`: new window contents and the emitted
trailing average, computed over the window with the fresh sample
appended. -/
def gatherSecond (w : List Nat) (count : Nat) : List Nat × ℚ :=
  let w' := w ++ [count]
  let sum := w'.foldl (fun (acc : ℚ) (v : Nat) => acc + (v : ℚ)) 0
  (if w'.length ≥ 60 then w'.tail else w', sum / (w'.length : ℚ))

/-- Run `gather` over a feed of per-second counts starting from window
`w`, recording for each second the window the average was computed over
together with the emitted average. -/
def gatherRunFrom (w : List Nat) : List Nat → List (List Nat × ℚ)
  | [] => []
  | c :: cs =>
      (w ++ [c], (gatherSecond w c).2) :: gatherRunFrom (gatherSecond w c).1 cs

theorem foldl_cast_sum (l : List Nat) :
    ∀ acc : ℚ,
      l.foldl (fun (acc : ℚ) (v : Nat) => acc + (v : ℚ)) acc = acc + (l.sum : ℚ) := by
  induction l with
  | nil => intro acc; simp
  | cons v rest ih =>
    intro acc
    rw [List.foldl_cons, ih, List.sum_cons, Nat.cast_add]
    ring

theorem gatherRunFrom_spec (feed : List Nat) :
    ∀ (w : List Nat), w.length ≤ 59 →
      ∀ entry ∈ gatherRunFrom w feed,
        entry.1.length ≤ 60
        ∧ entry.2 = (entry.1.sum : ℚ) / (entry.1.length : ℚ) := by
  induction feed with
  | nil =>
    intro w hw entry hmem
    simp [gatherRunFrom] at hmem
  | cons c cs ih =>
    intro w hw entry hmem
    simp only [gatherRunFrom, List.mem_cons] at hmem
    rcases hmem with hentry | hmem
    · subst hentry
      constructor
      · simp only [List.length_append, List.length_cons, List.length_nil]
        omega
      · show (gatherSecond w c).2 = _
        unfold gatherSecond
        dsimp only
        rw [foldl_cast_sum]
        simp
    · have hlen : (gatherSecond w c).1.length ≤ 59 := by
        unfold gatherSecond
        dsimp only
        split
        · simp only [List.length_tail, List.length_append, List.length_cons,
            List.length_nil]
          omega
        · rename_i hnot
          simp only [List.length_append, List.length_cons, List.length_nil] at hnot ⊢
          omega
      exact ih _ hlen entry hmem

/-- **C7**: every entry of the aggregator trace has a window of at most
60 samples and an emitted average equal to the arithmetic mean
`sum(window) / len(window)` of the samples stored in the window at
emission time; moreover once the appended window is full (60 entries)
the stored window drops the oldest sample. -/
theorem gather_window_spec (feed : List Nat) (entry : List Nat × ℚ)
    (hmem : entry ∈ gatherRunFrom [] feed) :
    entry.1.length ≤ 60
    ∧ entry.2 = (entry.1.sum : ℚ) / (entry.1.length : ℚ)
    ∧ ∀ (w : List Nat) (c : Nat), (w ++ [c]).length = 60 →
        (gatherSecond w c).1 = (w ++ [c]).tail := by
  have h := gatherRunFrom_spec feed [] (by simp) entry hmem
  refine ⟨h.1, h.2, ?_⟩
  intro w c hfull
  unfold gatherSecond
  dsimp only
  rw [if_pos (by omega)]

/-- Witness for C7: the first emitted entry for the feed `[3, 4]`. -/
theorem gather_window_spec_witness :
    (([3], (3 : ℚ)) : List Nat × ℚ).1.length ≤ 60
    ∧ (([3], (3 : ℚ)) : List Nat × ℚ).2
        = (((([3], (3 : ℚ)) : List Nat × ℚ).1.sum : ℚ)
            / ((([3], (3 : ℚ)) : List Nat × ℚ).1.length : ℚ))
    ∧ ∀ (w : List Nat) (c : Nat), (w ++ [c]).length = 60 →
        (gatherSecond w c).1 = (w ++ [c]).tail :=
  gather_window_spec [3, 4] ([3], (3 : ℚ)) (by
    simp only [gatherRunFrom, gatherSecond, List.mem_cons]
    left
    norm_num)

end LowRunner

namespace LowRunner

/-! ## Connection-pool resize (`updatePoolConfig` and the control branch
of `dispatch`, claim C8) -/

/-- A connection pool handle (`*pgxpool.Pool`); `closed` records that
`Close()` has been called on it. -/
structure pgPool where
  maxConns : Int
  closed : Bool
deriving DecidableEq, Repr

/-- A schedule message on the control channel (`ctrlData`). -/
structure ctrlData where
  workers : Int
  frequency : Int
  pause : Bool
deriving DecidableEq, Repr

/-- `updatePoolConfig(pool, maxConns)`: reject sizes below 1 before
touching the pool; otherwise close the old pool and reconnect with the
resized config.  `connectOk` is the environment's reconnect outcome.
Returns `((new pool or nil, err?), old pool afterwards)`. -/
def updatePoolConfig (pool : pgPool) (maxConns : Int) (connectOk : Bool) :
    (Option pgPool × Bool) × pgPool :=
  if maxConns < 1 then ((none, true), pool)
  else
    let closedOld := { pool with closed := true }
    if connectOk then
      ((some { maxConns := maxConns, closed := false }, false), closedOld)
    else ((none, true), closedOld)

/-- The dispatcher-local variables the `newSched := <-ctrl` branch can
change. -/
structure dispCtrlState where
  pool : Option pgPool
  numWorker : Int
  frequency : Int
  pause : Bool
deriving DecidableEq, Repr

/-- The `case newSched := <-ctrl` branch of `dispatch` (run.go lines
146–172): adopt a positive worker count; when the pool size differs,
`pool, err = updatePoolConfig(pool, numWorker)` — the local `pool`
variable takes the returned handle *even when the call errors*, in which
case only a log line is emitted; then adopt frequency and pause changes.
The second component reports whether a resize error was logged. -/
def dispatchCtrl (pool : pgPool) (numWorker freq : Int) (pause : Bool)
    (newSched : ctrlData) (connectOk : Bool) : dispCtrlState × Bool :=
  let numWorker1 := if newSched.workers > 0 then newSched.workers else numWorker
  let poolErr :=
    if newSched.workers > 0 then
      if pool.maxConns ≠ numWorker1 then
        (updatePoolConfig pool numWorker1 connectOk).1
      else (some pool, false)
    else (some pool, false)
  let freq1 := if newSched.frequency > 0 then newSched.frequency else freq
  let pause1 := if pause ≠ newSched.pause then newSched.pause else pause
  ({ pool := poolErr.1, numWorker := numWorker1, frequency := freq1,
     pause := pause1 }, poolErr.2)

/-- **C8 counterexample**: pool of size 1, a schedule asking for 2
workers, reconnect fails — the resize error is logged, but the
dispatcher's pool variable is overwritten with the nil handle, not left
at the pool held before the resize attempt. -/
theorem pool_resize_failure_nils_pool :
    (dispatchCtrl { maxConns := 1, closed := false } 1 1 false
        { workers := 2, frequency := 0, pause := false } false).2 = true
    ∧ (dispatchCtrl { maxConns := 1, closed := false } 1 1 false
        { workers := 2, frequency := 0, pause := false } false).1.pool = none
    ∧ (dispatchCtrl { maxConns := 1, closed := false } 1 1 false
        { workers := 2, frequency := 0, pause := false } false).1.pool
        ≠ some { maxConns := 1, closed := false } := by decide

/-- **C8 amended**: whenever a pool resize fails (the reconnect after
closing the old pool returns an error), the dispatcher logs the error and
keeps looping, but its pool variable is overwritten with the nil handle
returned by the failed reconnect — and the pool held before the attempt
has already been closed — rather than keeping the pre-resize handle. -/
theorem pool_resize_failure_spec (pool : pgPool) (numWorker freq : Int)
    (pause : Bool) (newSched : ctrlData)
    (hw : newSched.workers > 0) (hdiff : pool.maxConns ≠ newSched.workers) :
    (dispatchCtrl pool numWorker freq pause newSched false).2 = true
    ∧ (dispatchCtrl pool numWorker freq pause newSched false).1.pool = none
    ∧ (updatePoolConfig pool newSched.workers false).2.closed = true := by
  have hnotlt : ¬(newSched.workers < 1) := by omega
  unfold dispatchCtrl updatePoolConfig
  simp only [hw, if_true, hdiff, hnotlt, if_false]
  simp [hw, hdiff]

/-- Witness for the amended C8 at the concrete failed resize. -/
theorem pool_resize_failure_spec_witness :
    (dispatchCtrl { maxConns := 1, closed := false } 1 1 false
        { workers := 2, frequency := 0, pause := false } false).2 = true
    ∧ (dispatchCtrl { maxConns := 1, closed := false } 1 1 false
        { workers := 2, frequency := 0, pause := false } false).1.pool = none
    ∧ (updatePoolConfig { maxConns := 1, closed := false }
        ({ workers := 2, frequency := 0, pause := false } : ctrlData).workers
        false).2.closed = true :=
  pool_resize_failure_spec { maxConns := 1, closed := false } 1 1 false
    { workers := 2, frequency := 0, pause := false } (by decide) (by decide)

end LowRunner

namespace LowRunner

/-! ## Dispatcher batch overlap (claim C1)

Operational model of the `dispatch` waiting loop with one job and
`numWorker = 1`, together with the goroutines each cycle spawns:

* a worker (`go worker(...)`), whose body is
  `wg.Add(1); runXact(...); results <- r; wg.Done()` — note the
  `wg.Add(1)` is the goroutine's *first statement*, it does not happen at
  spawn time;
* a completion watcher (`go func(){ wg.Wait(); done <- struct{}{} }`),
  which passes `wg.Wait()` whenever the counter is 0.

A scheduler choice list drives the interleaving; every step is enabled
exactly when the corresponding Go statement could execute (a disabled
choice leaves the state unchanged).  The result channel is drained by
`gather`, so a worker's send is always enabled. -/

/-- A worker goroutine: 0 = about to `wg.Add(1)`, 1 = executing
`runXact`, 2 = about to send its result, 3 = about to `wg.Done()`,
4 = exited. -/
structure workerSt where
  batch : Nat
  pc : Nat
deriving DecidableEq, Repr

/-- A completion watcher: 0 = blocked in `wg.Wait()`, 1 = about to send
on `done`, 2 = exited. -/
structure watcherSt where
  batch : Nat
  pc : Nat
deriving DecidableEq, Repr

/-- The dispatcher loop plus the goroutines it spawned. -/
structure dispSys where
  workers : List workerSt
  watchers : List watcherSt
  wgCount : Nat
  waitNextTick : Bool
  pause : Bool
  batch : Nat
deriving DecidableEq, Repr

/-- `dispatch` just spawned batch 1 (one worker, one watcher, counter
still 0) and entered the waiting loop. -/
def dispInit : dispSys :=
  { workers := [{ batch := 1, pc := 0 }],
    watchers := [{ batch := 1, pc := 0 }],
    wgCount := 0, waitNextTick := true, pause := false, batch := 1 }

/-- Scheduler choices. -/
inductive dispChoice
  | workerStep (i : Nat)
  | watcherWait (i : Nat)
  | doneRecv (i : Nat)
  | tick
deriving DecidableEq, Repr

/-- Run one statement of worker `i`. -/
def stepWorker (s : dispSys) (i : Nat) : dispSys :=
  match s.workers[i]? with
  | none => s
  | some w =>
    if w.pc = 0 then
      { s with workers := s.workers.set i { w with pc := 1 },
               wgCount := s.wgCount + 1 }
    else if w.pc = 1 then { s with workers := s.workers.set i { w with pc := 2 } }
    else if w.pc = 2 then { s with workers := s.workers.set i { w with pc := 3 } }
    else if w.pc = 3 then
      { s with workers := s.workers.set i { w with pc := 4 },
               wgCount := s.wgCount - 1 }
    else s

/-- Watcher `i` returns from `wg.Wait()` — enabled exactly when the
counter is 0 (this is where the spawn-time race lives: the counter is
still 0 before the batch's workers have run their `wg.Add(1)`). -/
def stepWatcherWait (s : dispSys) (i : Nat) : dispSys :=
  match s.watchers[i]? with
  | none => s
  | some v =>
    if v.pc = 0 ∧ s.wgCount = 0 then
      { s with watchers := s.watchers.set i { v with pc := 1 } }
    else s

/-- The dispatcher's `case <-done`: consume watcher `i`'s pending send
and clear `waitNextTick`. -/
def stepDoneRecv (s : dispSys) (i : Nat) : dispSys :=
  match s.watchers[i]? with
  | none => s
  | some v =>
    if v.pc = 1 then
      { s with watchers := s.watchers.set i { v with pc := 2 },
               waitNextTick := false }
    else s

/-- The ticker fires (`case <-tick.C`): the loop breaks out and starts
the next batch only when `!waitNextTick || pause`; otherwise it keeps
waiting.  Starting a batch spawns one worker and a fresh watcher for the
new cycle and raises the wait flag again. -/
def stepTick (s : dispSys) : dispSys :=
  if s.waitNextTick ∧ ¬s.pause then s
  else if s.pause then { s with waitNextTick := true }
  else
    { s with
      workers := s.workers ++ [{ batch := s.batch + 1, pc := 0 }],
      watchers := s.watchers ++ [{ batch := s.batch + 1, pc := 0 }],
      batch := s.batch + 1,
      waitNextTick := true }

/-- One scheduler step. -/
def dispStep (s : dispSys) : dispChoice → dispSys
  | .workerStep i => stepWorker s i
  | .watcherWait i => stepWatcherWait s i
  | .doneRecv i => stepDoneRecv s i
  | .tick => stepTick s

/-- Run a whole choice sequence. -/
def dispRun (s : dispSys) (cs : List dispChoice) : dispSys :=
  cs.foldl dispStep s

/-- A worker goroutine is running its body: it has executed its
`wg.Add(1)` and has not exited. -/
def workerRunning (w : workerSt) : Bool :=
  decide (1 ≤ w.pc) && decide (w.pc ≤ 3)

/-- Workers of two distinct batches are running at the same time. -/
def twoBatchesRunning (s : dispSys) : Bool :=
  s.workers.any fun w1 => s.workers.any fun w2 =>
    workerRunning w1 && workerRunning w2 && !(w1.batch == w2.batch)

/-- The racy schedule: the batch-1 watcher passes `wg.Wait()` (counter
still 0) and signals done before the batch-1 worker has run at all; the
worker then starts `runXact`; the tick launches batch 2 whose worker also
starts. -/
def raceTrace : List dispChoice :=
  [.watcherWait 0, .doneRecv 0, .workerStep 0, .tick, .workerStep 1]

/-- **C1 (bug exhibit)**: under `raceTrace` the dispatcher launches batch
2 while the batch-1 worker is still executing `runXact` — worker
goroutines of two distinct batches run concurrently, because `wg.Add(1)`
happens inside the worker goroutine and the completion watcher can
therefore observe a zero counter and fire `done` before the batch has
started. -/
theorem dispatch_batches_overlap :
    twoBatchesRunning (dispRun dispInit raceTrace) = true
    ∧ (dispRun dispInit raceTrace).workers[0]? = some { batch := 1, pc := 1 }
    ∧ (dispRun dispInit raceTrace).workers[1]? = some { batch := 2, pc := 1 } := by
  decide

end LowRunner
